import Mathlib

/-!
# Atomic Notes Visualizer — verification of the client-side logic

A shallow embedding of the frontend logic of the atomic-notes-visualizer
repository, together with theorems settling the specification claims.

The embedded units are:
* the graph-data transformation utility (`getNodeColor`, `calculateNodeSize`,
  `transformAPIToGraphData` from `utils/graph-transformer.ts`);
* the SSE event-processing loop of `handleProcessNote` in `App.tsx`;
* the catch-clause → error-banner mappings of the fetch handlers in the two
  `App` components;
* the polling loop of `JobProgressTracker.tsx`;
* the YouTube URL validator (`isYouTubeUrl`, `extractVideoId` from
  `utils/youtube-validator.ts`);
* the client-side graph filters (`handleSearch`, `handleFilterChange`).

JavaScript numbers that are only ever passed through or compared are modelled
as `Int` (ids, sizes, progress) or `Rat` (relationship strengths); strings as
`String`; absent / `undefined` fields as `Option`; a JavaScript `Map` with a
`|| 0` default read as a total function `Nat → Nat`.
-/

namespace AtomicNotes

/-! ## Data model of `types/graph` (API response and D3 graph data) -/

/-- An entity of an API graph response (`/api/notes/{id}/graph`). -/
structure APIEntity where
  id : Nat
  name : String
  entity_type : String
  description : Option String := none
  color : Option String := none
deriving DecidableEq

/-- A relationship of an API graph response. -/
structure APIRelationship where
  id : Nat
  source_entity_id : Nat
  target_entity_id : Nat
  relationship_type : String
  strength : Rat
  ai_explanation : Option String := none
deriving DecidableEq

/-- The API graph response consumed by `transformAPIToGraphData`. -/
structure APIGraphResponse where
  entities : List APIEntity
  relationships : List APIRelationship
deriving DecidableEq

/-- A D3 graph node produced by the transformer. -/
structure GraphNode where
  id : String
  name : String
  type : String
  description : Option String
  color : String
  size : Int
deriving DecidableEq

/-- A D3 graph link produced by the transformer.  After D3 has run, `source`
and `target` may be replaced by node objects; the client code always reads
them back to the id string (`typeof link.source === 'object' ?
link.source.id : link.source`), so they are modelled as the id string. -/
structure GraphLink where
  source : String
  target : String
  relationshipType : String
  strength : Rat
  explanation : Option String
deriving DecidableEq

/-- The D3-ready graph data. -/
structure GraphData where
  nodes : List GraphNode
  links : List GraphLink
deriving DecidableEq

/-! ## `utils/graph-transformer.ts` -/

/-- The `ENTITY_TYPE_COLORS` record: color mapping for entity types. -/
def ENTITY_TYPE_COLORS : List (String × String) :=
  [("concept", "#FF70A6"),
   ("technology", "#FF9770"),
   ("idea", "#FFD670"),
   ("person", "#70E0FF"),
   ("technique", "#A770FF"),
   ("architecture", "#70FFB9")]

/-- Fallback color `DEFAULT_COLOR`: gray-400 for unknown types. -/
def DEFAULT_COLOR : String := "#9CA3AF"

/-- Color for an entity type: `ENTITY_TYPE_COLORS[entityType] || DEFAULT_COLOR`. -/
def getNodeColor (entityType : String) : String :=
  match ENTITY_TYPE_COLORS.lookup entityType with
  | some c => c
  | none => DEFAULT_COLOR

def MIN_SIZE : Int := 8
def MAX_SIZE : Int := 24
def SIZE_PER_CONNECTION : Int := 2

/-- Node radius from the number of connections (`calculateNodeSize`).
`if (connections < 0) return MIN_SIZE;` then
`Math.min(MIN_SIZE + connections * SIZE_PER_CONNECTION, MAX_SIZE)`. -/
def calculateNodeSize (connections : Int) : Int :=
  if connections < 0 then MIN_SIZE
  else min (MIN_SIZE + connections * SIZE_PER_CONNECTION) MAX_SIZE

/-- One `connectionCounts.set(k, (connectionCounts.get(k) || 0) + 1)` step,
on the `Map` viewed as a total function with default `0`. -/
def bumpCount (m : Nat → Nat) (k : Nat) : Nat → Nat :=
  fun x => if x = k then m k + 1 else m x

/-- The `connectionCounts` map built by the `relationships.forEach` loop of
`transformAPIToGraphData`: each relationship bumps the count of its
`source_entity_id` and then of its `target_entity_id`. -/
def connectionCounts (relationships : List APIRelationship) : Nat → Nat :=
  relationships.foldl
    (fun m rel => bumpCount (bumpCount m rel.source_entity_id) rel.target_entity_id)
    (fun _ => 0)

/-- Transform an API response into D3-ready
graph data.  The node color is `entity.color || getNodeColor(entity.entity_type)`
(JavaScript `||`: an absent or empty-string color falls back to the table). -/
def transformAPIToGraphData (apiResponse : APIGraphResponse) : GraphData :=
  let counts := connectionCounts apiResponse.relationships
  let nodes : List GraphNode := apiResponse.entities.map (fun entity =>
    let connections := counts entity.id
    let color := match entity.color with
      | some c => if c = "" then getNodeColor entity.entity_type else c
      | none => getNodeColor entity.entity_type
    { id := toString entity.id
      name := entity.name
      type := entity.entity_type
      description := entity.description
      color := color
      size := calculateNodeSize (connections : Int) })
  let links : List GraphLink := apiResponse.relationships.map (fun rel =>
    { source := toString rel.source_entity_id
      target := toString rel.target_entity_id
      relationshipType := rel.relationship_type
      strength := rel.strength
      explanation := rel.ai_explanation })
  { nodes := nodes, links := links }

/-- Number of relationships incident to entity `eid` in the sense of the
specification sentence: a relationship is incident when the entity is its
source or its target, and a self-loop counts as one relationship. -/
def incidentRelationshipCount (relationships : List APIRelationship) (eid : Nat) : Nat :=
  (relationships.filter
    (fun r => r.source_entity_id == eid || r.target_entity_id == eid)).length

/-- Number of relationship endpoints equal to `eid`: a self-loop contributes
two endpoints.  This is what the `forEach` loop of the source actually
counts. -/
def endpointOccurrences (relationships : List APIRelationship) (eid : Nat) : Nat :=
  (relationships.filter (fun r => r.source_entity_id == eid)).length +
  (relationships.filter (fun r => r.target_entity_id == eid)).length

/-- Test input: one entity with a single self-loop relationship. -/
def selfLoopResponse : APIGraphResponse :=
  { entities := [{ id := 1, name := "A", entity_type := "concept" }],
    relationships := [{ id := 1, source_entity_id := 1, target_entity_id := 1,
                        relationship_type := "related_to", strength := 1 }] }

/-- Test input: one entity carrying an explicit `color` field. -/
def colorOverrideResponse : APIGraphResponse :=
  { entities := [{ id := 1, name := "A", entity_type := "concept",
                   color := some "#123456" }],
    relationships := [] }

/-- Test input with duplicate entity ids and a relationship endpoint that
matches no entity. -/
def messyResponse : APIGraphResponse :=
  { entities := [{ id := 1, name := "A", entity_type := "concept" },
                 { id := 1, name := "B", entity_type := "mystery" }],
    relationships := [{ id := 1, source_entity_id := 1, target_entity_id := 99,
                        relationship_type := "related_to", strength := 1 }] }

/-! ## `App.tsx` — the SSE loop of `handleProcessNote` -/

/-- A `{stage, message, progress}` status record, as parsed from an SSE
`data:` payload and as stored in `processingStatus`. -/
structure ProcessingStatus where
  stage : String
  message : String
  progress : Int
deriving DecidableEq

/-- The slice of `App` state read and written by `handleProcessNote`. -/
structure ProcessingAppState where
  processingNoteId : Option Nat
  processingStatus : Option ProcessingStatus
  error : Option String
  /-- whether `loadFirstNote()` was awaited (notes list refreshed) -/
  notesRefreshed : Bool
  /-- the argument of an awaited `loadGraphData(noteId)`, when any -/
  graphLoadedFor : Option Nat
  /-- whether the 3-second `setTimeout` clearing the widget was scheduled -/
  statusClearScheduled : Bool
deriving DecidableEq

/-- One complete SSE event of the stream whose payload starts with
`data: `: either a successfully parsed `{stage, message, progress}` record,
or a chunk on which `JSON.parse` throws. -/
inductive SSEChunk where
  | chunkData (d : ProcessingStatus)
  | malformed
deriving DecidableEq

/-- Body of the inner `try` of the SSE loop of `handleProcessNote`:
parse the payload, store the status, on stage `complete` refresh the notes
list, load the processed note's graph and schedule the widget clear, and on
stage `error` throw `new Error(data.message)`.  A `.error` result is a
thrown exception carrying the message and the state mutated so far (React
state writes before the throw persist). -/
def processEventBody (noteId : Nat) (st : ProcessingAppState) (chunk : SSEChunk) :
    Except (String × ProcessingAppState) ProcessingAppState :=
  match chunk with
  | .malformed => .error ("SyntaxError", st)
  | .chunkData d =>
    let st1 := { st with processingStatus := some d }
    let st2 :=
      if d.stage = "complete" then
        { st1 with notesRefreshed := true
                   graphLoadedFor := some noteId
                   statusClearScheduled := true }
      else st1
    if d.stage = "error" then .error (d.message, st2) else .ok st2

/-- One SSE event as the loop actually handles it: the inner
`catch (parseErr) { console.warn(...) }` swallows any throw of the body —
including the deliberate `throw new Error(data.message)` on a stage-`error`
event — keeping the state updates that already happened. -/
def processEvent (noteId : Nat) (st : ProcessingAppState) (chunk : SSEChunk) :
    ProcessingAppState :=
  match processEventBody noteId st chunk with
  | .ok st' => st'
  | .error (_, st') => st'

/-- App state at entry of the SSE read loop: `handleProcessNote` has set
`processingNoteId`, cleared the error banner, and stored the initial
status. -/
def processingLoopEntryState (noteId : Nat) : ProcessingAppState :=
  { processingNoteId := some noteId
    processingStatus := some { stage := "extracting"
                               message := "Initializing processing..."
                               progress := 0 }
    error := none
    notesRefreshed := false
    graphLoadedFor := none
    statusClearScheduled := false }

/-- The SSE read loop of `handleProcessNote`, run over the parsed complete
events of the response stream. -/
def runProcessingStream (noteId : Nat) (events : List SSEChunk) :
    ProcessingAppState :=
  events.foldl (processEvent noteId) (processingLoopEntryState noteId)

/-- The outer `catch (err)` of `handleProcessNote`: stores the error message
in the banner state and clears `processingNoteId` and `processingStatus`.
Modelled separately for comparison: this is the handling the specification
expects for a stage-`error` event. -/
def processingOuterCatch (st : ProcessingAppState) (msg : String) :
    ProcessingAppState :=
  { st with error := some msg
            processingNoteId := none
            processingStatus := none }

/-! ## Catch-clause → error-banner mappings of the fetch handlers

Each definition embeds the `catch` clause of one handler: the string it
stores in the `error` state (rendered verbatim by the banner `{error}`).
The first group is from the `App.tsx` component, the `tracker*` group from
the `App` component that hosts `JobProgressTracker`. -/

/-- A value caught by a JavaScript `catch`: an `Error` object carrying a
message, or any other thrown value (`err instanceof Error` is false). -/
inductive CaughtValue where
  | errObj (message : String)
  | other
deriving DecidableEq

/-- Catch clause of `handleFileUpload`. -/
def uploadCatchBanner : CaughtValue → String
  | .errObj m => m
  | .other => "Upload failed"

/-- Catch clause of `loadGraphData`. -/
def loadGraphCatchBanner : CaughtValue → String
  | .errObj m => m
  | .other => "Failed to load graph data"

/-- Catch clause of `handleProcessNote` in `App.tsx`. -/
def processCatchBanner : CaughtValue → String
  | .errObj m => m
  | .other =>
      "Processing failed. Make sure your OpenAI API key is configured in backend/.env"

/-- Catch clause of `handleDeleteConfirm` in `App.tsx`. -/
def deleteCatchBanner : CaughtValue → String
  | .errObj m => m
  | .other => "Failed to delete note"

/-- Catch clause of `handleSearch` in `App.tsx`. -/
def searchCatchBanner : CaughtValue → String
  | .errObj m => m
  | .other => "Search failed"

/-- Catch clause of `handleProcessNote` in the tracker `App` component. -/
def trackerProcessCatchBanner : CaughtValue → String
  | .errObj m => m
  | .other => "Processing failed"

/-- Catch clause of `handleDeleteConfirm` in the tracker `App` component:
`setError('Failed to delete note')`, ignoring the caught error. -/
def trackerDeleteCatchBanner : CaughtValue → String :=
  fun _ => "Failed to delete note"

/-- Catch clause of `handleSearch` in the tracker `App` component:
`setError('Search failed')`, ignoring the caught error. -/
def trackerSearchCatchBanner : CaughtValue → String :=
  fun _ => "Search failed"

/-- Catch clause of `handleYouTubeProcess`:
`setError('Failed to process YouTube video')`, ignoring the caught error. -/
def trackerYouTubeCatchBanner : CaughtValue → String :=
  fun _ => "Failed to process YouTube video"

/-- The error banner renders the stored error string verbatim
(`{error}` inside the banner div). -/
def renderBanner (err : String) : String := err

/-! ## `JobProgressTracker.tsx` — the job-status polling loop -/

/-- The `status` field of a job-progress response. -/
inductive JobStatusKind where
  | queued
  | processing
  | completed
  | failed
deriving DecidableEq

/-- A parsed response of `GET /api/youtube/status/{job_id}`. -/
structure JobProgress where
  status : JobStatusKind
  stage : String
  progress : Int
  message : String
  note_id : Option Nat := none
deriving DecidableEq

/-- Outcome of one `fetchStatus` request: parsed data, or a failure (network
error, or a non-2xx response re-thrown as `Error('Status Fetch Failure')`),
which the `catch` only logs. -/
inductive PollOutcome where
  | ok (data : JobProgress)
  | fetchFailure
deriving DecidableEq

/-- Whether a job status is terminal. -/
def isTerminalStatus : JobStatusKind → Bool
  | .completed => true
  | .failed => true
  | _ => false

/-- Whether a poll outcome reports a terminal status. -/
def isTerminalOutcome : PollOutcome → Bool
  | .ok d => isTerminalStatus d.status
  | .fetchFailure => false

/-- The `JobProgressTracker` component state touched by the polling loop. -/
structure TrackerState where
  progressData : Option JobProgress
  error : Option String
  /-- the `hasCompleted` `useRef` guard -/
  hasCompleted : Bool
  /-- whether the `setInterval` handle has not been cleared -/
  intervalActive : Bool
  /-- number of status requests issued so far -/
  fetchCount : Nat
  /-- note ids passed to `onComplete`, in call order -/
  completeCalls : List Nat
deriving DecidableEq

/-- Component state when the effect mounts: interval armed, nothing
fetched. -/
def initialTrackerState : TrackerState :=
  { progressData := none
    error := none
    hasCompleted := false
    intervalActive := true
    fetchCount := 0
    completeCalls := [] }

/-- Handling of one poll response by `fetchStatus`: store the data; on
`completed` clear the interval and, unless the `hasCompleted` ref is already
set, set it and invoke `onComplete(data.note_id)` when `note_id` is truthy;
on `failed` clear the interval and store the error message (with the
`'Signal Interrupted'` fallback for an empty message); otherwise keep
polling.  A fetch failure is only logged. -/
def fetchStatusStep (st : TrackerState) (r : PollOutcome) : TrackerState :=
  match r with
  | .fetchFailure => st
  | .ok data =>
    let st1 := { st with progressData := some data }
    match data.status with
    | .completed =>
      let st2 := { st1 with intervalActive := false }
      if st2.hasCompleted then st2
      else
        let st3 := { st2 with hasCompleted := true }
        match data.note_id with
        | some nid =>
            if nid = 0 then st3
            else { st3 with completeCalls := st3.completeCalls ++ [nid] }
        | none => st3
    | .failed =>
      { st1 with intervalActive := false
                 error := some (if data.message = "" then "Signal Interrupted"
                                else data.message) }
    | _ => st1

/-- The polling loop: the initial `fetchStatus()` call and every
`setInterval` tick issue a request only while the interval has not been
cleared; `rs` is the sequence of responses the backend would return. -/
def pollRun : TrackerState → List PollOutcome → TrackerState
  | st, [] => st
  | st, r :: rs =>
    if st.intervalActive then
      pollRun (fetchStatusStep { st with fetchCount := st.fetchCount + 1 } r) rs
    else st

/-- Delivery of a list of responses to the handler regardless of the
interval state — the situation of requests already in flight when the
interval is cleared, which the `hasCompleted` ref guards against. -/
def deliverAll (st : TrackerState) (rs : List PollOutcome) : TrackerState :=
  rs.foldl fetchStatusStep st

/-- The effect cleanup, run when the widget is closed or unmounted:
`isMounted = false; clearInterval(pollInterval)`. -/
def trackerCleanup (st : TrackerState) : TrackerState :=
  { st with intervalActive := false }

/-- The constant delay passed to `setInterval(fetchStatus, 3000)`. -/
def POLL_INTERVAL_MS : Nat := 3000

/-- Scheduled time of the `n`-th interval tick: `setInterval` with a
constant delay fires at multiples of that delay. -/
def pollTickTime (n : Nat) : Nat := POLL_INTERVAL_MS * n

/-- Test response: a still-queued job. -/
def queuedResponse : PollOutcome :=
  .ok { status := .queued, stage := "downloading", progress := 0,
        message := "queued" }

/-- Test response: a job in progress. -/
def processingResponse : PollOutcome :=
  .ok { status := .processing, stage := "transcribing", progress := 40,
        message := "working" }

/-- Test response: a completed job carrying a note id. -/
def completedResponse : PollOutcome :=
  .ok { status := .completed, stage := "complete", progress := 100,
        message := "done", note_id := some 5 }

/-! ## Client-side graph filters of the tracker `App` component -/

/-- The search-result filter of `handleSearch`: when the semantic search
returned at least one result, keep the nodes whose id is among the result
ids, then keep only the links whose source and target ids are both among
the kept node ids; with no results the filtered graph is cleared
(`setFilteredGraphData(null)`). -/
def handleSearchFilter (matchingIds : List String) (g : GraphData) :
    Option GraphData :=
  if matchingIds.isEmpty then none
  else
    let nodes := g.nodes.filter (fun node => matchingIds.contains node.id)
    let nodeIds := nodes.map (fun n => n.id)
    let links := g.links.filter (fun l =>
      nodeIds.contains l.source && nodeIds.contains l.target)
    some { nodes := nodes, links := links }

/-- Outcome of `handleFilterChange`: the early return when no graph is
loaded, the reset to the unfiltered graph when every entity type is selected
at minimum strength 0, or a new filtered graph. -/
inductive FilterOutcome where
  | unchanged
  | cleared
  | filtered (g : GraphData)
deriving DecidableEq

/-- The entity-type / min-strength filter of `handleFilterChange`: keep the
nodes whose type is selected, and the links whose two endpoint ids are among
the kept node ids and whose strength is at least the minimum. -/
def handleFilterChange (entityTypes : List String) (minStrength : Rat)
    (g : GraphData) : FilterOutcome :=
  if g.nodes.length = 0 then .unchanged
  else
    let allTypes := (g.nodes.map (fun n => n.type)).dedup
    if entityTypes.length = allTypes.length ∧ minStrength = 0 then .cleared
    else
      let nodes := g.nodes.filter (fun node => entityTypes.contains node.type)
      let nodeIds := nodes.map (fun n => n.id)
      let links := g.links.filter (fun l =>
        nodeIds.contains l.source && nodeIds.contains l.target &&
          decide (minStrength ≤ l.strength))
      .filtered { nodes := nodes, links := links }

/-- Test node of type `concept`. -/
def conceptNode : GraphNode :=
  { id := "1", name := "A", type := "concept", description := none,
    color := "#FF70A6", size := 10 }

/-- Test node of type `idea`. -/
def ideaNode : GraphNode :=
  { id := "2", name := "B", type := "idea", description := none,
    color := "#FFD670", size := 10 }

/-- Test link from node 1 to node 2. -/
def crossLink : GraphLink :=
  { source := "1", target := "2", relationshipType := "related_to",
    strength := 1, explanation := none }

/-- Test link from node 1 to itself. -/
def selfLink : GraphLink :=
  { source := "1", target := "1", relationshipType := "related_to",
    strength := 1, explanation := none }

/-- Test graph with two nodes and two links. -/
def filterTestGraph : GraphData :=
  { nodes := [conceptNode, ideaNode], links := [crossLink, selfLink] }

/-- The graph `filterTestGraph` filtered down to node 1. -/
def filteredToNodeOne : GraphData :=
  { nodes := [conceptNode], links := [selfLink] }

/-! ## `utils/youtube-validator.ts`

The four `isYouTubeUrl` regexes and the four `extractVideoId` regexes are
embedded as explicit matchers over `List Char`.  Character classes, literal
sequences, the optional `(https?:\/\/)?` / `(www\.)?` groups and the
trailing `(.*)$` (where `.` matches any character except a line terminator)
are translated directly; an unanchored `url.match(pattern)` becomes a
leftmost search. -/

/-- The character class `[a-zA-Z0-9_-]` of the video-id groups. -/
def isVideoIdChar (c : Char) : Bool :=
  ('a' ≤ c && c ≤ 'z') || ('A' ≤ c && c ≤ 'Z') ||
  ('0' ≤ c && c ≤ '9') || c == '_' || c == '-'

/-- What `.` matches in a JavaScript regex without the `s` flag: any
character except a line terminator. -/
def isDotChar (c : Char) : Bool :=
  !(c == '\n' || c == '\r' || c == '\u2028' || c == '\u2029')

/-- Consume an exact literal prefix of the input. -/
def stripLit : List Char → List Char → Option (List Char)
  | [], s => some s
  | _ :: _, [] => none
  | p :: ps, c :: cs => if c = p then stripLit ps cs else none

/-- Consume exactly `n` video-id characters, returning them and the rest. -/
def takeIdChars : Nat → List Char → Option (List Char × List Char)
  | 0, s => some ([], s)
  | _ + 1, [] => none
  | n + 1, c :: cs =>
    if isVideoIdChar c then
      match takeIdChars n cs with
      | some (v, r) => some (c :: v, r)
      | none => none
    else none

/-- The alternatives of the optional scheme group `(https?:\/\/)?`. -/
def schemeAlternatives : List (List Char) :=
  [[], "http://".data, "https://".data]

/-- The alternatives of the optional `(www\.)?` group. -/
def wwwAlternatives : List (List Char) := [[], "www.".data]

/-- Matcher for one anchored `isYouTubeUrl` pattern
`^(https?:\/\/)?(www\.)?HOST([a-zA-Z0-9_-]{11})(.*)$`; the `youtu.be`
pattern has no `(www\.)?` group (`hasWww = false`). -/
def matchYouTubePattern (host : List Char) (hasWww : Bool) (s : List Char) :
    Bool :=
  schemeAlternatives.any (fun sch =>
    match stripLit sch s with
    | none => false
    | some s1 =>
      (if hasWww then wwwAlternatives else [[]]).any (fun w =>
        match stripLit w s1 with
        | none => false
        | some s2 =>
          match stripLit host s2 with
          | none => false
          | some s3 =>
            match takeIdChars 11 s3 with
            | none => false
            | some (_, rest) => rest.all isDotChar))

/-- Whether the string matches one of the four accepted YouTube URL
shapes: `youtube.com/watch?v=`, `youtu.be/`, `youtube.com/embed/`,
`youtube.com/shorts/`, each followed by an 11-character video id. -/
def isYouTubeUrl (url : String) : Bool :=
  matchYouTubePattern "youtube.com/watch?v=".data true url.data ||
  matchYouTubePattern "youtu.be/".data false url.data ||
  matchYouTubePattern "youtube.com/embed/".data true url.data ||
  matchYouTubePattern "youtube.com/shorts/".data true url.data

/-- Attempt of one unanchored `extractVideoId` pattern at the current
position: the literal prefix followed by 11 video-id characters, the
capture group. -/
def matchIdAfter (pre : List Char) (s : List Char) : Option (List Char) :=
  match stripLit pre s with
  | some r =>
    match takeIdChars 11 r with
    | some (v, _) => some v
    | none => none
  | none => none

/-- Leftmost unanchored search of `url.match(/PRE([a-zA-Z0-9_-]{11})/)`. -/
def searchPattern (pre : List Char) : List Char → Option (List Char)
  | [] => matchIdAfter pre []
  | c :: cs =>
    match matchIdAfter pre (c :: cs) with
    | some v => some v
    | none => searchPattern pre cs

/-- Extract the video id by trying the four patterns `v=`, `youtu.be/`,
`embed/`, `shorts/` in order and returning the first capture. -/
def extractVideoId (url : String) : Option String :=
  match searchPattern "v=".data url.data with
  | some v => some (String.mk v)
  | none =>
    match searchPattern "youtu.be/".data url.data with
    | some v => some (String.mk v)
    | none =>
      match searchPattern "embed/".data url.data with
      | some v => some (String.mk v)
      | none =>
        match searchPattern "shorts/".data url.data with
        | some v => some (String.mk v)
        | none => none

/-- Reading a `bumpCount` update adds one exactly at the bumped key. -/
lemma bumpCount_apply (m : Nat → Nat) (k x : Nat) :
    bumpCount m k x = m x + if x = k then 1 else 0 := by
  unfold bumpCount
  split <;> simp_all

/-- The `forEach` fold over relationships, started from any map `m`, adds the
number of endpoint occurrences to the initial value. -/
lemma connectionCounts_foldl (rels : List APIRelationship) (m : Nat → Nat) (x : Nat) :
    (rels.foldl
      (fun m rel => bumpCount (bumpCount m rel.source_entity_id) rel.target_entity_id)
      m) x = m x + endpointOccurrences rels x := by
  induction rels generalizing m with
  | nil => simp [endpointOccurrences]
  | cons r rs ih =>
    simp only [List.foldl_cons, ih, bumpCount_apply, endpointOccurrences,
      List.filter_cons, beq_iff_eq]
    by_cases hs : r.source_entity_id = x
    · by_cases ht : r.target_entity_id = x
      · simp [hs, ht]; omega
      · have ht' : ¬ x = r.target_entity_id := fun h => ht h.symm
        simp [hs, ht, ht']; omega
    · have hs' : ¬ x = r.source_entity_id := fun h => hs h.symm
      by_cases ht : r.target_entity_id = x
      · simp [hs, hs', ht]; omega
      · have ht' : ¬ x = r.target_entity_id := fun h => ht h.symm
        simp [hs, hs', ht, ht']

/-- The `connectionCounts` map read at `x` is the number of relationship
endpoints equal to `x`. -/
lemma connectionCounts_eq (rels : List APIRelationship) (x : Nat) :
    connectionCounts rels x = endpointOccurrences rels x := by
  simpa using connectionCounts_foldl rels (fun _ => 0) x

/-- C1, counterexample.  On an input with one entity and one self-loop
relationship, the entity has exactly one incident relationship, yet the
produced node has radius 12, not the claimed 8 + 2 × 1 = 10 clamped to
[8, 24]: the `forEach` loop bumps the count once for the source endpoint and
once for the (equal) target endpoint. -/
theorem selfLoop_radius_counterexample :
    (transformAPIToGraphData selfLoopResponse).nodes.map (fun n => n.size) = [12] ∧
    incidentRelationshipCount selfLoopResponse.relationships 1 = 1 ∧
    selfLoopResponse.entities.map (fun e => e.id) = [1] ∧
    ¬ ((transformAPIToGraphData selfLoopResponse).nodes.map (fun n => n.size) =
       [max 8 (min (8 + 2 *
          (incidentRelationshipCount selfLoopResponse.relationships 1 : Int)) 24)]) :=
  ⟨by decide, by decide, by decide, by decide⟩

/-- C1, amended.  For every API graph response, the node produced for the
`i`-th entity has radius 8 + 2 × (number of relationship *endpoints* equal to
the entity's id — a self-loop contributes two), capped at 24; and every
produced node's radius lies in [8, 24]. -/
theorem node_radius_clamped_endpoint_degree (resp : APIGraphResponse) (i : Nat)
    (e : APIEntity) (he : resp.entities[i]? = some e) :
    ((transformAPIToGraphData resp).nodes[i]?).map (fun n => n.size)
      = some (min (8 + 2 * (endpointOccurrences resp.relationships e.id : Int)) 24) ∧
    ∀ n ∈ (transformAPIToGraphData resp).nodes, 8 ≤ n.size ∧ n.size ≤ 24 := by
  constructor
  · simp only [transformAPIToGraphData, List.getElem?_map, he, Option.map_some,
      Option.some.injEq, calculateNodeSize, connectionCounts_eq]
    have h0 : ¬ ((endpointOccurrences resp.relationships e.id : Int) < 0) :=
      not_lt.mpr (Int.natCast_nonneg _)
    simp only [h0, if_false, MIN_SIZE, MAX_SIZE, SIZE_PER_CONNECTION, ite_false]
    rw [Int.mul_comm]
    simp [h0]
  · intro n hn
    simp only [transformAPIToGraphData, List.mem_map] at hn
    obtain ⟨entity, -, rfl⟩ := hn
    simp only [calculateNodeSize, MIN_SIZE, MAX_SIZE, SIZE_PER_CONNECTION]
    have h0 : ¬ ((connectionCounts resp.relationships entity.id : Int) < 0) :=
      not_lt.mpr (Int.natCast_nonneg _)
    simp only [h0, ite_false]
    omega

/-- C1, witness: the amended radius law evaluated on the self-loop input. -/
theorem node_radius_clamped_endpoint_degree_witness :
    ((transformAPIToGraphData selfLoopResponse).nodes[0]?).map (fun n => n.size)
      = some (min (8 + 2 *
          (endpointOccurrences selfLoopResponse.relationships 1 : Int)) 24) ∧
    ∀ n ∈ (transformAPIToGraphData selfLoopResponse).nodes,
      8 ≤ n.size ∧ n.size ≤ 24 :=
  node_radius_clamped_endpoint_degree selfLoopResponse 0
    { id := 1, name := "A", entity_type := "concept" } (by decide)

/-- C2, counterexample.  An entity of category `concept` with an explicit
`color` field produces a node whose color is that explicit color, not the
table entry `#FF70A6` for `concept`. -/
theorem nodeColor_override_counterexample :
    (transformAPIToGraphData colorOverrideResponse).nodes.map (fun n => n.color)
      = ["#123456"] ∧
    colorOverrideResponse.entities.map (fun e => e.entity_type) = ["concept"] ∧
    getNodeColor "concept" = "#FF70A6" ∧
    ("#123456" : String) ≠ "#FF70A6" :=
  ⟨by decide, by decide, by decide, by decide⟩

/-- C2, amended.  The node color is the entity's own `color` field when that
field is present and non-empty, and otherwise comes from the fixed 6-entry
table keyed by the entity's category (concept → #FF70A6, technology →
#FF9770, idea → #FFD670, person → #70E0FF, technique → #A770FF,
architecture → #70FFB9), with the single default #9CA3AF for any other
category. -/
theorem nodeColor_entity_override_then_table (resp : APIGraphResponse) (i : Nat)
    (e : APIEntity) (he : resp.entities[i]? = some e) :
    ((transformAPIToGraphData resp).nodes[i]?).map (fun n => n.color)
      = some (match e.color with
          | some c => if c = "" then getNodeColor e.entity_type else c
          | none => getNodeColor e.entity_type) ∧
    getNodeColor "concept" = "#FF70A6" ∧
    getNodeColor "technology" = "#FF9770" ∧
    getNodeColor "idea" = "#FFD670" ∧
    getNodeColor "person" = "#70E0FF" ∧
    getNodeColor "technique" = "#A770FF" ∧
    getNodeColor "architecture" = "#70FFB9" ∧
    (∀ t : String, t ∉ ["concept", "technology", "idea", "person", "technique",
        "architecture"] → getNodeColor t = DEFAULT_COLOR) := by
  refine ⟨?_, by decide, by decide, by decide, by decide, by decide, by decide, ?_⟩
  · simp [transformAPIToGraphData, List.getElem?_map, he]
  · intro t ht
    simp only [List.mem_cons, List.not_mem_nil, or_false, not_or] at ht
    obtain ⟨h1, h2, h3, h4, h5, h6⟩ := ht
    have e1 : (t == "concept") = false := beq_eq_false_iff_ne.mpr h1
    have e2 : (t == "technology") = false := beq_eq_false_iff_ne.mpr h2
    have e3 : (t == "idea") = false := beq_eq_false_iff_ne.mpr h3
    have e4 : (t == "person") = false := beq_eq_false_iff_ne.mpr h4
    have e5 : (t == "technique") = false := beq_eq_false_iff_ne.mpr h5
    have e6 : (t == "architecture") = false := beq_eq_false_iff_ne.mpr h6
    simp [getNodeColor, ENTITY_TYPE_COLORS, List.lookup, e1, e2, e3, e4, e5, e6]

/-- C2, witness: the amended color law evaluated on the explicit-color
input. -/
theorem nodeColor_entity_override_then_table_witness :
    ((transformAPIToGraphData colorOverrideResponse).nodes[0]?).map
        (fun n => n.color) = some "#123456" ∧
    getNodeColor "concept" = "#FF70A6" ∧
    getNodeColor "technology" = "#FF9770" ∧
    getNodeColor "idea" = "#FFD670" ∧
    getNodeColor "person" = "#70E0FF" ∧
    getNodeColor "technique" = "#A770FF" ∧
    getNodeColor "architecture" = "#70FFB9" ∧
    (∀ t : String, t ∉ ["concept", "technology", "idea", "person", "technique",
        "architecture"] → getNodeColor t = DEFAULT_COLOR) :=
  nodeColor_entity_override_then_table colorOverrideResponse 0
    { id := 1, name := "A", entity_type := "concept", color := some "#123456" }
    (by decide)

/-- C3.  `transformAPIToGraphData` produces exactly one link per
relationship, in the same order; each link passes through the relationship's
type, strength and AI explanation unchanged, with source and target the
string forms of the relationship's entity ids. -/
theorem links_one_per_relationship_passthrough (resp : APIGraphResponse) :
    (transformAPIToGraphData resp).links.length = resp.relationships.length ∧
    ∀ i : Nat, (transformAPIToGraphData resp).links[i]? =
      (resp.relationships[i]?).map (fun rel =>
        { source := toString rel.source_entity_id
          target := toString rel.target_entity_id
          relationshipType := rel.relationship_type
          strength := rel.strength
          explanation := rel.ai_explanation }) := by
  constructor
  · simp [transformAPIToGraphData]
  · intro i
    simp [transformAPIToGraphData, List.getElem?_map]

/-- C4.  `transformAPIToGraphData` is deterministic (equal inputs give equal
outputs) and total: on any input — including duplicate ids and dangling
relationship endpoints — it returns a graph with one node per entity and one
link per relationship. -/
theorem transform_deterministic_total (resp1 resp2 : APIGraphResponse)
    (h : resp1 = resp2) :
    transformAPIToGraphData resp1 = transformAPIToGraphData resp2 ∧
    (transformAPIToGraphData resp1).nodes.length = resp1.entities.length ∧
    (transformAPIToGraphData resp1).links.length = resp1.relationships.length := by
  subst h
  exact ⟨rfl, by simp [transformAPIToGraphData], by simp [transformAPIToGraphData]⟩

/-- C4, witness: determinism and totality evaluated on an input with a
duplicate entity id and a dangling relationship endpoint. -/
theorem transform_deterministic_total_witness :
    transformAPIToGraphData messyResponse = transformAPIToGraphData messyResponse ∧
    (transformAPIToGraphData messyResponse).nodes.length
      = messyResponse.entities.length ∧
    (transformAPIToGraphData messyResponse).links.length
      = messyResponse.relationships.length :=
  transform_deterministic_total messyResponse messyResponse rfl

/-- C5.  Evaluation of the SSE loop at the failing input: a stream whose
single event is `data: {"stage":"error","message":"boom","progress":0}`.
The deliberate `throw new Error(data.message)` is caught by the inner
JSON-parse `catch`, which only logs a warning, so — contrary to the claim
and to the code's own `// If error, show and close` comment — the processing
state is left in place and no error is surfaced; a `complete` event, by
contrast, is handled as claimed.  The state the claim requires is
`processingOuterCatch` applied to the message. -/
theorem sse_error_event_swallowed :
    (runProcessingStream 7
        [.chunkData { stage := "error", message := "boom", progress := 0 }]
      = { processingNoteId := some 7
          processingStatus := some { stage := "error", message := "boom",
                                     progress := 0 }
          error := none
          notesRefreshed := false
          graphLoadedFor := none
          statusClearScheduled := false }) ∧
    (runProcessingStream 7
        [.chunkData { stage := "error", message := "boom", progress := 0 }]).error
      = none ∧
    (runProcessingStream 7
        [.chunkData { stage := "error", message := "boom", progress := 0 }]).processingNoteId
      ≠ none ∧
    (processingOuterCatch
        (runProcessingStream 7
          [.chunkData { stage := "error", message := "boom", progress := 0 }])
        "boom").error = some "boom" ∧
    (runProcessingStream 7
        [.chunkData { stage := "complete", message := "done", progress := 100 }]
      = { processingNoteId := some 7
          processingStatus := some { stage := "complete", message := "done",
                                     progress := 100 }
          error := none
          notesRefreshed := true
          graphLoadedFor := some 7
          statusClearScheduled := true }) :=
  ⟨by decide, by decide, by decide, by decide, by decide⟩

/-- C6, counterexample.  A failing delete in the tracker `App` component
raises `Error('Delete failed')`, but the banner receives the fixed string
`Failed to delete note`, not the raised message. -/
theorem trackerDelete_banner_counterexample :
    trackerDeleteCatchBanner (.errObj "Delete failed") = "Failed to delete note" ∧
    renderBanner (trackerDeleteCatchBanner (.errObj "Delete failed"))
      ≠ "Delete failed" :=
  ⟨rfl, by decide⟩

/-- C6, amended.  In `App.tsx` the banner string equals the raised `Error`'s
message verbatim for the upload, graph-load, process, delete and search
handlers; in the tracker `App` component this holds for upload, graph-load
and process, but the delete, search and YouTube handlers store a fixed
string regardless of the raised error. -/
theorem banner_verbatim_except_tracker_fixed (m : String) (v : CaughtValue) :
    renderBanner (uploadCatchBanner (.errObj m)) = m ∧
    renderBanner (loadGraphCatchBanner (.errObj m)) = m ∧
    renderBanner (processCatchBanner (.errObj m)) = m ∧
    renderBanner (deleteCatchBanner (.errObj m)) = m ∧
    renderBanner (searchCatchBanner (.errObj m)) = m ∧
    renderBanner (trackerProcessCatchBanner (.errObj m)) = m ∧
    renderBanner (trackerDeleteCatchBanner v) = "Failed to delete note" ∧
    renderBanner (trackerSearchCatchBanner v) = "Search failed" ∧
    renderBanner (trackerYouTubeCatchBanner v) = "Failed to process YouTube video" :=
  ⟨rfl, rfl, rfl, rfl, rfl, rfl, rfl, rfl, rfl⟩

/-- Handling a poll response never changes the request counter. -/
lemma fetchStatusStep_fetchCount (st : TrackerState) (r : PollOutcome) :
    (fetchStatusStep st r).fetchCount = st.fetchCount := by
  cases r with
  | fetchFailure => rfl
  | ok d =>
    rcases d with ⟨status, stage, progress, message, note_id⟩
    cases status <;> cases note_id <;>
      simp only [fetchStatusStep] <;>
      first
        | rfl
        | (split_ifs <;> rfl)

/-- A non-terminal poll response leaves the interval as it was. -/
lemma fetchStatusStep_nonterminal_intervalActive (st : TrackerState)
    (r : PollOutcome) (h : isTerminalOutcome r = false) :
    (fetchStatusStep st r).intervalActive = st.intervalActive := by
  cases r with
  | fetchFailure => rfl
  | ok d =>
    rcases d with ⟨status, stage, progress, message, note_id⟩
    cases status <;>
      simp [isTerminalOutcome, isTerminalStatus] at h <;>
      cases note_id <;>
      simp only [fetchStatusStep]

/-- A terminal poll response always clears the interval. -/
lemma fetchStatusStep_terminal_intervalInactive (st : TrackerState)
    (r : PollOutcome) (h : isTerminalOutcome r = true) :
    (fetchStatusStep st r).intervalActive = false := by
  cases r with
  | fetchFailure => simp [isTerminalOutcome] at h
  | ok d =>
    rcases d with ⟨status, stage, progress, message, note_id⟩
    cases status <;>
      simp [isTerminalOutcome, isTerminalStatus] at h <;>
      cases note_id <;>
      simp only [fetchStatusStep] <;>
      first
        | rfl
        | (split_ifs <;> rfl)

/-- Once the interval is cleared no response is ever fetched. -/
lemma pollRun_inactive (st : TrackerState) (rs : List PollOutcome)
    (h : st.intervalActive = false) : pollRun st rs = st := by
  cases rs <;> simp [pollRun, h]

/-- While every response is non-terminal the poller keeps going: the
interval stays armed and every scheduled request is issued. -/
lemma pollRun_nonterminal (rs : List PollOutcome) (st : TrackerState)
    (hst : st.intervalActive = true)
    (h : ∀ r ∈ rs, isTerminalOutcome r = false) :
    (pollRun st rs).intervalActive = true ∧
    (pollRun st rs).fetchCount = st.fetchCount + rs.length := by
  induction rs generalizing st with
  | nil => simp [pollRun, hst]
  | cons r rs ih =>
    have h1 : isTerminalOutcome r = false := h r (by simp)
    rw [pollRun, if_pos hst]
    have h2 : (fetchStatusStep { st with fetchCount := st.fetchCount + 1 }
        r).intervalActive = true := by
      rw [fetchStatusStep_nonterminal_intervalActive _ _ h1]
      exact hst
    have h4 := ih (fetchStatusStep { st with fetchCount := st.fetchCount + 1 } r)
      h2 (fun x hx => h x (by simp [hx]))
    refine ⟨h4.1, ?_⟩
    rw [h4.2, fetchStatusStep_fetchCount]
    simp
    omega

/-- Responses after the first terminal one are never consulted. -/
lemma pollRun_stops_after_terminal (rs : List PollOutcome) (st : TrackerState)
    (r : PollOutcome) (rs' : List PollOutcome)
    (hterm : isTerminalOutcome r = true) :
    pollRun st (rs ++ r :: rs') = pollRun st (rs ++ [r]) := by
  induction rs generalizing st with
  | nil =>
    simp only [List.nil_append]
    by_cases hst : st.intervalActive
    · simp only [pollRun, hst, if_true]
      exact pollRun_inactive _ _
        (fetchStatusStep_terminal_intervalInactive _ _ hterm)
    · have hst' : st.intervalActive = false := by simpa using hst
      simp [pollRun, hst']
  | cons x xs ih =>
    simp only [List.cons_append, pollRun]
    by_cases hst : st.intervalActive
    · simp only [hst, if_true]
      exact ih _
    · simp [hst]

/-- Handling one response preserves the `hasCompleted` bound on the number
of `onComplete` calls. -/
lemma fetchStatusStep_completeCalls (st : TrackerState) (r : PollOutcome)
    (h : st.completeCalls.length ≤ if st.hasCompleted then 1 else 0) :
    (fetchStatusStep st r).completeCalls.length ≤
      if (fetchStatusStep st r).hasCompleted then 1 else 0 := by
  cases r with
  | fetchFailure => exact h
  | ok d =>
    rcases d with ⟨status, stage, progress, message, note_id⟩
    cases status <;> cases note_id <;>
      simp only [fetchStatusStep] <;>
      first
        | exact h
        | (split_ifs <;> simp_all)

/-- Delivering any number of responses to the handler preserves the
`hasCompleted` bound. -/
lemma deliverAll_completeCalls (rs : List PollOutcome) (st : TrackerState)
    (h : st.completeCalls.length ≤ if st.hasCompleted then 1 else 0) :
    (deliverAll st rs).completeCalls.length ≤
      if (deliverAll st rs).hasCompleted then 1 else 0 := by
  induction rs generalizing st with
  | nil => exact h
  | cons r rs ih => exact ih _ (fetchStatusStep_completeCalls st r h)

/-- C7.  The job-status poller uses the fixed 3-second `setInterval` delay
(consecutive scheduled polls are always 3000 ms apart — no backoff), and as
long as the responses report a non-terminal status (queued, processing, or a
failed fetch) the interval stays armed and every scheduled request is issued
— no cap on the total duration and no self-cancellation; only the effect
cleanup run by closing the widget clears the interval in that situation. -/
theorem poll_fixed_interval_no_backoff_no_cap (rs : List PollOutcome)
    (h : ∀ r ∈ rs, isTerminalOutcome r = false) :
    POLL_INTERVAL_MS = 3000 ∧
    (∀ n : Nat, pollTickTime (n + 1) - pollTickTime n = POLL_INTERVAL_MS) ∧
    (pollRun initialTrackerState rs).intervalActive = true ∧
    (pollRun initialTrackerState rs).fetchCount = rs.length ∧
    (∀ st : TrackerState, (trackerCleanup st).intervalActive = false) := by
  have h4 := pollRun_nonterminal rs initialTrackerState rfl h
  refine ⟨rfl, ?_, h4.1, by simpa [initialTrackerState] using h4.2, fun st => rfl⟩
  intro n
  simp only [pollTickTime, POLL_INTERVAL_MS]
  omega

/-- C7, witness: the polling law evaluated on a failed fetch followed by a
queued and a processing response. -/
theorem poll_fixed_interval_no_backoff_no_cap_witness :
    POLL_INTERVAL_MS = 3000 ∧
    (∀ n : Nat, pollTickTime (n + 1) - pollTickTime n = POLL_INTERVAL_MS) ∧
    (pollRun initialTrackerState
        [.fetchFailure, queuedResponse, processingResponse]).intervalActive = true ∧
    (pollRun initialTrackerState
        [.fetchFailure, queuedResponse, processingResponse]).fetchCount = 3 ∧
    (∀ st : TrackerState, (trackerCleanup st).intervalActive = false) :=
  poll_fixed_interval_no_backoff_no_cap
    [.fetchFailure, queuedResponse, processingResponse] (by decide)

/-- C10.  For a given job the tracker invokes `onComplete` at most once even
when any number of responses — including several consecutive `completed`
ones, e.g. from requests already in flight — are delivered to the handler
(the `hasCompleted` ref guard); and once a poll observes a terminal status
the interval is cleared, so responses after the first terminal one are never
requested. -/
theorem onComplete_once_and_interval_cleared_on_terminal
    (delivered : List PollOutcome) (rs rs' : List PollOutcome) (r : PollOutcome)
    (hterm : isTerminalOutcome r = true) :
    (deliverAll initialTrackerState delivered).completeCalls.length ≤ 1 ∧
    pollRun initialTrackerState (rs ++ r :: rs') =
      pollRun initialTrackerState (rs ++ [r]) := by
  constructor
  · have h1 := deliverAll_completeCalls delivered initialTrackerState
      (by simp [initialTrackerState])
    have h2 : (if (deliverAll initialTrackerState delivered).hasCompleted
        then 1 else 0) ≤ 1 := by split <;> omega
    exact h1.trans h2
  · exact pollRun_stops_after_terminal rs initialTrackerState r rs' hterm

/-- C10, witness: two consecutive `completed` responses delivered to the
handler yield a single `onComplete` call, and polling stops at the first
terminal response. -/
theorem onComplete_once_and_interval_cleared_on_terminal_witness :
    (deliverAll initialTrackerState
        [completedResponse, completedResponse]).completeCalls.length ≤ 1 ∧
    pollRun initialTrackerState
        ([queuedResponse] ++ completedResponse :: [processingResponse]) =
      pollRun initialTrackerState ([queuedResponse] ++ [completedResponse]) :=
  onComplete_once_and_interval_cleared_on_terminal
    [completedResponse, completedResponse]
    [queuedResponse] [processingResponse] completedResponse (by decide)

/-- C9.  Every filtered graph the client computes — from a semantic-search
result (`handleSearch`) or from the entity-type / min-strength controls
(`handleFilterChange`) — is closed under link endpoints: each kept link has
both its source id and its target id among the ids of the kept nodes, so no
displayed edge dangles. -/
theorem filtered_graphs_closed_under_endpoints :
    (∀ (ids : List String) (g fg : GraphData),
        handleSearchFilter ids g = some fg →
        ∀ l ∈ fg.links, l.source ∈ fg.nodes.map (fun n => n.id) ∧
          l.target ∈ fg.nodes.map (fun n => n.id)) ∧
    (∀ (ts : List String) (ms : Rat) (g fg : GraphData),
        handleFilterChange ts ms g = .filtered fg →
        ∀ l ∈ fg.links, l.source ∈ fg.nodes.map (fun n => n.id) ∧
          l.target ∈ fg.nodes.map (fun n => n.id)) := by
  constructor
  · intro ids g fg hfg l hl
    unfold handleSearchFilter at hfg
    split at hfg
    · exact absurd hfg (by simp)
    · rw [Option.some.injEq] at hfg
      subst hfg
      simp only [List.mem_filter, Bool.and_eq_true] at hl
      obtain ⟨-, hs, ht⟩ := hl
      constructor
      · simpa using hs
      · simpa using ht
  · intro ts ms g fg hfg l hl
    unfold handleFilterChange at hfg
    split at hfg
    · exact absurd hfg (by simp)
    · dsimp only at hfg
      split at hfg
      · exact absurd hfg (by simp)
      · rw [FilterOutcome.filtered.injEq] at hfg
        subst hfg
        simp only [List.mem_filter, Bool.and_eq_true] at hl
        obtain ⟨-, ⟨hs, ht⟩, -⟩ := hl
        constructor
        · simpa using hs
        · simpa using ht

/-- C9, witness: endpoint closure evaluated on a concrete search filter
(keeping node 1 and its self-link) and a concrete strength filter (keeping
the whole test graph). -/
theorem filtered_graphs_closed_under_endpoints_witness :
    (selfLink.source ∈ filteredToNodeOne.nodes.map (fun n => n.id) ∧
     selfLink.target ∈ filteredToNodeOne.nodes.map (fun n => n.id)) ∧
    (crossLink.source ∈ filterTestGraph.nodes.map (fun n => n.id) ∧
     crossLink.target ∈ filterTestGraph.nodes.map (fun n => n.id)) :=
  ⟨filtered_graphs_closed_under_endpoints.1 ["1"] filterTestGraph
      filteredToNodeOne (by decide) selfLink (by decide),
   filtered_graphs_closed_under_endpoints.2 ["concept", "idea"] 1
      filterTestGraph filterTestGraph (by decide) crossLink (by decide)⟩

/-- A successful literal strip decomposes the input. -/
lemma stripLit_eq_append (p : List Char) :
    ∀ s r : List Char, stripLit p s = some r → s = p ++ r := by
  induction p with
  | nil =>
    intro s r h
    simp only [stripLit, Option.some.injEq] at h
    simp [h]
  | cons x xs ih =>
    intro s r h
    cases s with
    | nil => simp [stripLit] at h
    | cons c cs =>
      simp only [stripLit] at h
      split at h
      · next hc => subst hc; simpa using ih cs r h
      · exact absurd h (by simp)

/-- Stripping a literal off itself plus a tail succeeds. -/
lemma stripLit_self_append (p r : List Char) : stripLit p (p ++ r) = some r := by
  induction p with
  | nil => rfl
  | cons x xs ih => simp [stripLit, ih]

/-- A successful `takeIdChars` yields exactly `n` id characters and a
decomposition of the input. -/
lemma takeIdChars_some (n : Nat) :
    ∀ s v r : List Char, takeIdChars n s = some (v, r) →
      v.length = n ∧ v.all isVideoIdChar = true ∧ s = v ++ r := by
  induction n with
  | zero =>
    intro s v r h
    simp only [takeIdChars, Option.some.injEq, Prod.mk.injEq] at h
    obtain ⟨h1, h2⟩ := h
    subst h1; subst h2
    simp
  | succ n ih =>
    intro s v r h
    cases s with
    | nil => simp [takeIdChars] at h
    | cons c cs =>
      simp only [takeIdChars] at h
      split at h
      · next hc =>
        cases ht : takeIdChars n cs with
        | none => rw [ht] at h; exact absurd h (by simp)
        | some pr =>
          rcases pr with ⟨v', r'⟩
          rw [ht] at h
          simp only [Option.some.injEq, Prod.mk.injEq] at h
          obtain ⟨h1, h2⟩ := h
          subst h2
          obtain ⟨l1, l2, l3⟩ := ih cs v' r' ht
          subst h1
          simp [List.all_cons, hc, l1, l2, l3]
      · exact absurd h (by simp)

/-- A successful pattern attempt captures exactly 11 id characters. -/
lemma matchIdAfter_some (pre s v : List Char) (h : matchIdAfter pre s = some v) :
    v.length = 11 ∧ v.all isVideoIdChar = true := by
  unfold matchIdAfter at h
  cases hs : stripLit pre s with
  | none => rw [hs] at h; exact absurd h (by simp)
  | some r =>
    rw [hs] at h
    dsimp only at h
    cases ht : takeIdChars 11 r with
    | none => rw [ht] at h; exact absurd h (by simp)
    | some pr =>
      rcases pr with ⟨v', r'⟩
      rw [ht] at h
      simp only [Option.some.injEq] at h
      subst h
      have hp := takeIdChars_some 11 r v' r' ht
      exact ⟨hp.1, hp.2.1⟩

/-- A successful unanchored search captures exactly 11 id characters. -/
lemma searchPattern_some (pre : List Char) :
    ∀ s v : List Char, searchPattern pre s = some v →
      v.length = 11 ∧ v.all isVideoIdChar = true := by
  intro s
  induction s with
  | nil => intro v h; exact matchIdAfter_some pre [] v h
  | cons c cs ih =>
    intro v h
    simp only [searchPattern] at h
    cases hm : matchIdAfter pre (c :: cs) with
    | some w =>
      rw [hm] at h
      simp only [Option.some.injEq] at h
      subst h
      exact matchIdAfter_some _ _ _ hm
    | none =>
      rw [hm] at h
      exact ih v h

/-- A match at the current position is what the search returns. -/
lemma searchPattern_of_matchIdAfter (pre s v : List Char)
    (h : matchIdAfter pre s = some v) : searchPattern pre s = some v := by
  cases s with
  | nil => simpa [searchPattern] using h
  | cons c cs => simp [searchPattern, h]

/-- The pattern attempt succeeds right at its own literal. -/
lemma matchIdAfter_pre_append (pre b : List Char)
    (hb : (takeIdChars 11 b).isSome) : (matchIdAfter pre (pre ++ b)).isSome := by
  unfold matchIdAfter
  rw [stripLit_self_append]
  dsimp only
  cases ht : takeIdChars 11 b with
  | none => rw [ht] at hb; exact absurd hb (by simp)
  | some pr =>
    rcases pr with ⟨v, r⟩
    rfl

/-- An input containing the literal followed by 11 id characters makes the
unanchored search succeed. -/
lemma searchPattern_isSome (pre : List Char) :
    ∀ a b : List Char, (takeIdChars 11 b).isSome →
      (searchPattern pre (a ++ pre ++ b)).isSome := by
  intro a
  induction a with
  | nil =>
    intro b hb
    have h := matchIdAfter_pre_append pre b hb
    obtain ⟨v, hv⟩ := Option.isSome_iff_exists.mp h
    rw [List.nil_append, searchPattern_of_matchIdAfter pre _ v hv]
    rfl
  | cons x xs ih =>
    intro b hb
    simp only [List.cons_append, List.append_assoc] at ih ⊢
    rw [searchPattern]
    cases hm : matchIdAfter pre (x :: (xs ++ (pre ++ b))) with
    | some w => simp
    | none => exact ih b hb

/-- A string accepted by an anchored URL pattern contains its host literal
followed by 11 id characters. -/
lemma matchYouTubePattern_decompose (host : List Char) (www : Bool)
    (s : List Char) (h : matchYouTubePattern host www s = true) :
    ∃ a b : List Char, s = a ++ host ++ b ∧ (takeIdChars 11 b).isSome := by
  unfold matchYouTubePattern at h
  rw [List.any_eq_true] at h
  obtain ⟨sch, hsch, h⟩ := h
  cases h1 : stripLit sch s with
  | none => rw [h1] at h; exact absurd h (by simp)
  | some s1 =>
    rw [h1] at h
    dsimp only at h
    rw [List.any_eq_true] at h
    obtain ⟨w, hw, h⟩ := h
    cases h2 : stripLit w s1 with
    | none => rw [h2] at h; exact absurd h (by simp)
    | some s2 =>
      rw [h2] at h
      dsimp only at h
      cases h3 : stripLit host s2 with
      | none => rw [h3] at h; exact absurd h (by simp)
      | some s3 =>
        rw [h3] at h
        dsimp only at h
        cases h4 : takeIdChars 11 s3 with
        | none => rw [h4] at h; exact absurd h (by simp)
        | some pr =>
          refine ⟨sch ++ w, s3, ?_, by rw [h4]; rfl⟩
          have e1 := stripLit_eq_append sch s s1 h1
          have e2 := stripLit_eq_append w s1 s2 h2
          have e3 := stripLit_eq_append host s2 s3 h3
          subst e1
          subst e2
          subst e3
          simp [List.append_assoc]

/-- Success of any of the four searches makes `extractVideoId` succeed. -/
lemma extractVideoId_isSome_of_search (u : String)
    (h : (searchPattern "v=".data u.data).isSome = true ∨
         (searchPattern "youtu.be/".data u.data).isSome = true ∨
         (searchPattern "embed/".data u.data).isSome = true ∨
         (searchPattern "shorts/".data u.data).isSome = true) :
    (extractVideoId u).isSome = true := by
  unfold extractVideoId
  cases h1 : searchPattern "v=".data u.data with
  | some v => rfl
  | none =>
    cases h2 : searchPattern "youtu.be/".data u.data with
    | some v => rfl
    | none =>
      cases h3 : searchPattern "embed/".data u.data with
      | some v => rfl
      | none =>
        cases h4 : searchPattern "shorts/".data u.data with
        | some v => rfl
        | none =>
          rw [h1, h2, h3, h4] at h
          simp at h

/-- Whatever `extractVideoId` returns has exactly 11 id characters. -/
lemma extractVideoId_shape (u : String) (v : String)
    (h : extractVideoId u = some v) :
    v.length = 11 ∧ v.data.all isVideoIdChar = true := by
  unfold extractVideoId at h
  cases h1 : searchPattern "v=".data u.data with
  | some w =>
    rw [h1] at h
    dsimp only at h
    rw [Option.some.injEq] at h
    subst h
    have hp := searchPattern_some _ _ _ h1
    exact ⟨hp.1, hp.2⟩
  | none =>
    rw [h1] at h
    dsimp only at h
    cases h2 : searchPattern "youtu.be/".data u.data with
    | some w =>
      rw [h2] at h
      dsimp only at h
      rw [Option.some.injEq] at h
      subst h
      have hp := searchPattern_some _ _ _ h2
      exact ⟨hp.1, hp.2⟩
    | none =>
      rw [h2] at h
      dsimp only at h
      cases h3 : searchPattern "embed/".data u.data with
      | some w =>
        rw [h3] at h
        dsimp only at h
        rw [Option.some.injEq] at h
        subst h
        have hp := searchPattern_some _ _ _ h3
        exact ⟨hp.1, hp.2⟩
      | none =>
        rw [h3] at h
        dsimp only at h
        cases h4 : searchPattern "shorts/".data u.data with
        | some w =>
          rw [h4] at h
          dsimp only at h
          rw [Option.some.injEq] at h
          subst h
          have hp := searchPattern_some _ _ _ h4
          exact ⟨hp.1, hp.2⟩
        | none =>
          rw [h4] at h
          exact absurd h (by simp)

/-- Regrouping of an inner literal that splits into two literals. -/
lemma append_split_host (a b L P Q : List Char) (hL : L = P ++ Q) :
    a ++ L ++ b = (a ++ P) ++ Q ++ b := by
  subst hL
  simp [List.append_assoc]

/-- A URL accepted by `isYouTubeUrl` makes `extractVideoId` succeed. -/
lemma isYouTubeUrl_extract_isSome (u : String) (h : isYouTubeUrl u = true) :
    (extractVideoId u).isSome = true := by
  unfold isYouTubeUrl at h
  simp only [Bool.or_eq_true] at h
  apply extractVideoId_isSome_of_search
  rcases h with ((h | h) | h) | h
  · obtain ⟨a, b, hs, hb⟩ := matchYouTubePattern_decompose _ _ _ h
    refine Or.inl ?_
    have hsplit : u.data = (a ++ "youtube.com/watch?".data) ++ "v=".data ++ b := by
      rw [hs]
      exact append_split_host a b _ "youtube.com/watch?".data "v=".data (by decide)
    rw [hsplit]
    exact searchPattern_isSome _ _ _ hb
  · obtain ⟨a, b, hs, hb⟩ := matchYouTubePattern_decompose _ _ _ h
    refine Or.inr (Or.inl ?_)
    rw [hs]
    exact searchPattern_isSome _ _ _ hb
  · obtain ⟨a, b, hs, hb⟩ := matchYouTubePattern_decompose _ _ _ h
    refine Or.inr (Or.inr (Or.inl ?_))
    have hsplit : u.data = (a ++ "youtube.com/".data) ++ "embed/".data ++ b := by
      rw [hs]
      exact append_split_host a b _ "youtube.com/".data "embed/".data (by decide)
    rw [hsplit]
    exact searchPattern_isSome _ _ _ hb
  · obtain ⟨a, b, hs, hb⟩ := matchYouTubePattern_decompose _ _ _ h
    refine Or.inr (Or.inr (Or.inr ?_))
    have hsplit : u.data = (a ++ "youtube.com/".data) ++ "shorts/".data ++ b := by
      rw [hs]
      exact append_split_host a b _ "youtube.com/".data "shorts/".data (by decide)
    rw [hsplit]
    exact searchPattern_isSome _ _ _ hb

/-- C8.  For every string, if `isYouTubeUrl` accepts it (one of the four
YouTube URL shapes with an 11-character id of letters, digits, underscore or
hyphen), then `extractVideoId` returns a string of exactly 11 such
characters; contrapositively, whenever `extractVideoId` returns `none`,
`isYouTubeUrl` rejects the string. -/
theorem isYouTubeUrl_implies_extractVideoId (u : String) :
    (isYouTubeUrl u = true →
      ∃ v : String, extractVideoId u = some v ∧ v.length = 11 ∧
        v.data.all isVideoIdChar = true) ∧
    (extractVideoId u = none → isYouTubeUrl u = false) := by
  constructor
  · intro h
    obtain ⟨v, hv⟩ := Option.isSome_iff_exists.mp (isYouTubeUrl_extract_isSome u h)
    exact ⟨v, hv, extractVideoId_shape u v hv⟩
  · intro hn
    rcases Bool.eq_false_or_eq_true (isYouTubeUrl u) with hb | hb
    · have hs := isYouTubeUrl_extract_isSome u hb
      rw [hn] at hs
      exact absurd hs (by simp)
    · exact hb

/-- C8, witness: the agreement evaluated on a concrete watch URL. -/
theorem isYouTubeUrl_implies_extractVideoId_witness :
    isYouTubeUrl "https://www.youtube.com/watch?v=dQw4w9WgXcQ" = true ∧
    (∃ v : String,
      extractVideoId "https://www.youtube.com/watch?v=dQw4w9WgXcQ" = some v ∧
      v.length = 11 ∧ v.data.all isVideoIdChar = true) :=
  ⟨by decide, (isYouTubeUrl_implies_extractVideoId "https://www.youtube.com/watch?v=dQw4w9WgXcQ").1 (by decide)⟩

end AtomicNotes
